import Mathlib

/-!
Verification of the segmented-transcription pipeline in `script.py`.

The source is a Python batch script that extracts audio from video files,
splits oversized audio, transcribes each chunk through a remote service,
combines the per-chunk transcript JSON files, renders an SRT subtitle file
and cleans up intermediates.  This file shallowly embeds the script:

* JSON transcript documents become `JsonDoc` (an optional list of
  `TranscriptSegment`, each field optional exactly as `dict.get` treats it);
* numeric seconds values become `ℚ` (the script manipulates them with
  `%`, `int()` and `divmod`, all of which are exact on rationals);
* the filesystem becomes explicit association lists inside `St`;
* the external world (ffmpeg exit codes, file size checks, the remote
  transcription service) becomes an `Env` of oracles;
* a raised-and-unhandled Python exception becomes `some errorMessage` in
  the second component of a `St × Option String` result.

Python `int()` truncates toward zero and `x % 1` / `divmod` use floor
semantics; both are modelled exactly below (`pyInt`, `pyMod1`, `pyDivmod`).
-/

/-- One element of the `segments` array of a transcript JSON document.
The script accesses `segment.get("start", 0)`, `segment.get("end", 0)`,
`segment.get("text", "")`, so each field is optional.  The JSON field
`end` is a Lean keyword and is called `stop` here. -/
structure TranscriptSegment where
  start : Option ℚ
  stop : Option ℚ
  text : Option String
deriving DecidableEq

/-- A transcript JSON document as the script reads it: it only ever looks at
`data.get("segments", [])`, so a document is modelled by that one optional
field. -/
structure JsonDoc where
  segments : Option (List TranscriptSegment)
deriving DecidableEq

/-- Python `int(q)`: truncation toward zero. -/
def pyInt (q : ℚ) : Int := if 0 ≤ q then ⌊q⌋ else -⌊-q⌋

/-- Python `q % 1` on floats: floor-based remainder, `q - floor q`. -/
def pyMod1 (q : ℚ) : ℚ := q - ⌊q⌋

/-- Python `divmod(a, b)` uses floor division.  For the positive divisors
used by the script (3600 and 60) floor division coincides with the
Euclidean division of Lean's `Int`, which is used here. -/
def pyDivmod (a b : Int) : Int × Int := (a / b, a % b)

/-- Decimal digit character, `48 + d` is the code point of the digit `d`. -/
def digitChar (d : Nat) : Char := Char.ofNat (48 + d)

/-- Decimal digits of `n`, most significant first; structural on fuel so that
it evaluates by kernel reduction.  The fuel `n + 1` always suffices since
`n / 10 < n` for `n ≥ 10`. -/
def natDecimalAux : Nat → Nat → List Char
  | 0, _ => []
  | fuel + 1, n => if n < 10 then [digitChar n] else natDecimalAux fuel (n / 10) ++ [digitChar (n % 10)]

/-- Decimal digit list of a natural number. -/
def natDecimal (n : Nat) : List Char := natDecimalAux (n + 1) n

/-- Zero-pad a digit list on the left to width `w` (keeping all digits when
there are more than `w`), as Python `%0wd` / format specifiers do. -/
def pad0 (w : Nat) (cs : List Char) : String :=
  String.mk (List.replicate (w - cs.length) '0' ++ cs)

/-- Python integer formatting with zero padding to minimum width `w`
(format specifiers such as width-2 and width-3 zero padding).  For negative
numbers the sign occupies one column of the width, as in Python. -/
def pyFormatInt (w : Nat) (n : Int) : String :=
  if n < 0 then "-" ++ pad0 (w - 1) (natDecimal n.natAbs) else pad0 w (natDecimal n.toNat)

/-- Embedding of `seconds_to_srt_timestamp` (script.py lines 108-114):
milliseconds are truncated from the fractional part, the integer part is
decomposed with `divmod` by 3600 and 60, and the four fields are rendered
zero-padded to widths 2, 2, 2 and 3. -/
def seconds_to_srt_timestamp (seconds : ℚ) : String :=
  let milliseconds := pyInt (pyMod1 seconds * 1000)
  let total_seconds := pyInt seconds
  let hr := pyDivmod total_seconds 3600
  let msec := pyDivmod hr.2 60
  pyFormatInt 2 hr.1 ++ ":" ++ pyFormatInt 2 msec.1 ++ ":" ++ pyFormatInt 2 msec.2 ++
    "," ++ pyFormatInt 3 milliseconds

/-- Embedding of the pure content of `combine_json_segments` (script.py
lines 94-105): the `segments` lists of the input documents (defaulting to
`[]` when the key is absent) are concatenated in order.  The script passes
no chunk durations and performs no timestamp shifting. -/
def combine_json_segments (docs : List JsonDoc) : JsonDoc :=
  { segments := some (docs.foldl (fun acc data => acc ++ data.segments.getD []) []) }

/-- One SRT block as built by the loop body of `convert_json_to_srt`
(script.py line 129): index, timestamp line, text, each newline-terminated;
missing `start`/`end` default to 0 and missing `text` to the empty string. -/
def srtBlock (idx : Nat) (segment : TranscriptSegment) : String :=
  String.mk (natDecimal idx) ++ "\n" ++
    seconds_to_srt_timestamp (segment.start.getD 0) ++ " --> " ++
    seconds_to_srt_timestamp (segment.stop.getD 0) ++ "\n" ++
    segment.text.getD "" ++ "\n"

/-- Embedding of the pure content of `convert_json_to_srt` (script.py lines
117-132): enumerate the segments starting at 1, render one block each, and
concatenate (the script writes the list of lines with `writelines`). -/
def convert_json_to_srt (data : JsonDoc) : String :=
  String.join ((List.enumFrom 1 (data.segments.getD [])).map fun p => srtBlock p.1 p.2)

/-- Modelled from the claim wording for the Subtitle Encoder: one block per
segment in input order, numbered sequentially from 1, the empty document for
an empty segment list.  Used only to compare against the embedded
`convert_json_to_srt`. -/
def renderSpecFrom (idx : Nat) : List TranscriptSegment → String
  | [] => ""
  | s :: rest => srtBlock idx s ++ renderSpecFrom (idx + 1) rest

/-- Claim-side subtitle rendering: blocks numbered from 1 in input order. -/
def renderSpec (segs : List TranscriptSegment) : String := renderSpecFrom 1 segs

/-- Python's `sorted` key `x.lower()` applied to a file name: the character
data of the string, lowercased pointwise. -/
def pyLowerKey (s : String) : List Char := s.data.map Char.toLower

/-- Lexicographic strict comparison of character lists by code point, the
order Python uses to compare strings. -/
def charListLt : List Char → List Char → Bool
  | [], [] => false
  | [], _ :: _ => true
  | _ :: _, [] => false
  | a :: as, b :: bs => if a < b then true else if b < a then false else charListLt as bs

/-- Comparison used by `split_audio_if_needed`: strict order of lowercased
names (the `key=lambda x: x.lower()` of script.py line 65). -/
def lowerLt (a b : String) : Bool := charListLt (pyLowerKey a) (pyLowerKey b)

/-- Stable insertion of `x` behind every element whose key is strictly
smaller: `x` is placed before the first element not strictly below it, which
reproduces the stable ascending order of Python's `sorted`. -/
def pyInsert {α : Type} (lt : α → α → Bool) (x : α) : List α → List α
  | [] => [x]
  | b :: bs => if lt b x then b :: pyInsert lt x bs else x :: b :: bs

/-- Stable ascending sort (the specification of Python's `sorted`),
computed as a structurally recursive insertion sort. -/
def pySorted {α : Type} (lt : α → α → Bool) : List α → List α
  | [] => []
  | x :: xs => pyInsert lt x (pySorted lt xs)

/-- The name sort of script.py lines 63-66: ascending by lowercased name. -/
def sorted_by_lower (files : List String) : List String := pySorted lowerLt files

/-- Derived path of the extracted audio for a work item (script.py line 32). -/
def audioPath (base : String) : String := "audio/" ++ base ++ ".webm"

/-- Derived path of the final subtitle file (script.py line 145). -/
def srtPath (base : String) : String := "srt/" ++ base ++ ".srt"

/-- Derived path of the per-chunk transcript JSON, `idx` zero-padded to
3 digits (script.py line 157). -/
def chunkJsonPath (base : String) (idx : Nat) : String :=
  "json/" ++ base ++ "-split" ++ pad0 3 (natDecimal idx) ++ ".json"

/-- Derived path of the combined transcript JSON (script.py line 161). -/
def combinedJsonPath (base : String) : String := "json/" ++ base ++ ".json"

/-- Name of the `i`-th chunk produced by the ffmpeg segment muxer with the
`%03d` pattern of script.py line 55: the index in decimal, zero-padded to at
least 3 digits (wider beyond 999, never truncated). -/
def segmentFilePath (base : String) (i : Nat) : String :=
  "audio/split/" ++ base ++ "-split" ++ pad0 3 (natDecimal i) ++ ".webm"

/-- Chunk names of one asset in chronological order of their indices. -/
def chunkNames (base : String) (n : Nat) : List String :=
  (List.range n).map (segmentFilePath base)

/-- Outcome of one `transcribe_audio_with_groq` call: the transcript written
on success (`none` when every attempt failed), the sleeps performed, and how
many service calls were made. -/
structure TranscribeRun where
  result : Option JsonDoc
  waits : List Nat
  calls : Nat
deriving DecidableEq

/-- The retry loop of script.py lines 75-91.  `retry_count` starts at 0 and
the loop runs while `retry_count < 5`; the fuel is `5 - retry_count`.  Every
exception is caught alike: the counter is incremented and the loop sleeps
`60 * retry_count` seconds.  After the fifth failure the loop just exits:
no transcript is written and no exception escapes. -/
def transcribeGo (attempt : Nat → Except String JsonDoc) : Nat → Nat → TranscribeRun
  | _, 0 => ⟨none, [], 0⟩
  | retry_count, fuel + 1 =>
    match attempt retry_count with
    | .ok doc => ⟨some doc, [], 1⟩
    | .error _ =>
      let rest := transcribeGo attempt (retry_count + 1) fuel
      ⟨rest.result, 60 * (retry_count + 1) :: rest.waits, rest.calls + 1⟩

/-- Embedding of `transcribe_audio_with_groq` (script.py lines 70-91),
parameterised by the service's answer to each attempt. -/
def transcribe_audio_with_groq (attempt : Nat → Except String JsonDoc) : TranscribeRun :=
  transcribeGo attempt 0 5

/-- Oracles for the external world: ffmpeg extraction, the file-size check,
the split command together with the resulting directory listing, and the
transcription service's answer per chunk and attempt. -/
structure Env where
  extract : String → Except String Unit
  oversized : String → Bool
  splitResult : String → Except String (List String)
  attempt : String → Nat → Except String JsonDoc

/-- Filesystem and effect state of a run: audio files present, JSON and SRT
files with contents, the log of deletions, and the number of transcription
service calls performed. -/
structure St where
  audioFiles : List String
  jsonFiles : List (String × JsonDoc)
  srtFiles : List (String × String)
  removedLog : List String
  transcribeCalls : Nat
deriving DecidableEq

/-- Remove the entry for path `p` from an association list. -/
def fsErase {α : Type} : List (String × α) → String → List (String × α)
  | [], _ => []
  | q :: rest, p => if q.1 = p then fsErase rest p else q :: fsErase rest p

/-- Write (create or overwrite) the file `p` with content `v`. -/
def fsWrite {α : Type} (files : List (String × α)) (p : String) (v : α) : List (String × α) :=
  fsErase files p ++ [(p, v)]

/-- Read the file `p`, `none` when it does not exist. -/
def fsRead {α : Type} : List (String × α) → String → Option α
  | [], _ => none
  | q :: rest, p => if q.1 = p then some q.2 else fsRead rest p

/-- Remove every occurrence of `p` from a list of paths. -/
def listRemove : List String → String → List String
  | [], _ => []
  | a :: as, p => if a = p then listRemove as p else a :: listRemove as p

/-- Embedding of `convert_video_to_audio` (script.py lines 29-39): run the
extraction command (raising its error on a non-zero exit) and produce the
audio file at the derived path. -/
def convert_video_to_audio (env : Env) (st : St) (base_name : String) : St × Except String String :=
  match env.extract base_name with
  | .error e => (st, .error e)
  | .ok _ =>
    let p := audioPath base_name
    ({ st with audioFiles := if p ∈ st.audioFiles then st.audioFiles else st.audioFiles ++ [p] },
      .ok p)

/-- Embedding of `split_audio_if_needed` (script.py lines 42-67): when the
size check passes, the original file is the single chunk; otherwise the
split command runs and the returned sequence is the split directory listing
sorted by lowercased name. -/
def split_audio_if_needed (env : Env) (st : St) (audio_path : String) :
    St × Except String (List String) :=
  if env.oversized audio_path then
    match env.splitResult audio_path with
    | .error e => (st, .error e)
    | .ok chunks =>
      ({ st with audioFiles := st.audioFiles ++ chunks }, .ok (sorted_by_lower chunks))
  else (st, .ok [audio_path])

/-- The transcription loop of script.py lines 156-159: for each chunk, call
`transcribe_audio_with_groq` and append the derived JSON path to
`json_files` whether or not a transcript was actually written. -/
def transcribeAll (env : Env) (base_name : String) : St → List (Nat × String) → St × List String
  | st, [] => (st, [])
  | st, (idx, chunk) :: rest =>
    let run := transcribe_audio_with_groq (env.attempt chunk)
    let jp := chunkJsonPath base_name idx
    let st1 : St :=
      { st with
        transcribeCalls := st.transcribeCalls + run.calls,
        jsonFiles :=
          match run.result with
          | some doc => fsWrite st.jsonFiles jp doc
          | none => st.jsonFiles }
    let r := transcribeAll env base_name st1 rest
    (r.1, jp :: r.2)

/-- The reading half of `combine_json_segments` (script.py lines 98-101):
open each listed JSON file in order; a missing file raises. -/
def readJsons (st : St) : List String → Except String (List JsonDoc)
  | [] => .ok []
  | p :: rest =>
    match fsRead st.jsonFiles p with
    | none => .error ("FileNotFoundError: " ++ p)
    | some d =>
      match readJsons st rest with
      | .error e => .error e
      | .ok ds => .ok (d :: ds)

/-- The cleanup loop of script.py lines 168-169: `os.remove` each path,
raising on a missing file. -/
def removeFiles : St → List String → St × Option String
  | st, [] => (st, none)
  | st, p :: rest =>
    if p ∈ st.audioFiles then
      removeFiles { st with audioFiles := listRemove st.audioFiles p,
                            removedLog := st.removedLog ++ [p] } rest
    else if p ∈ st.jsonFiles.map Prod.fst then
      removeFiles { st with jsonFiles := fsErase st.jsonFiles p,
                            removedLog := st.removedLog ++ [p] } rest
    else (st, some ("FileNotFoundError: " ++ p))

/-- Embedding of the per-item body of `process_video_files` (script.py lines
142-169): skip when the subtitle already exists, otherwise extract, split,
transcribe every chunk, combine the per-chunk JSON files, render the SRT and
delete `split_files + json_files`.  The second component is the unhandled
exception, if any; there is no per-item handler in the source. -/
def processOne (env : Env) (st : St) (base_name : String) : St × Option String :=
  if srtPath base_name ∈ st.srtFiles.map Prod.fst then (st, none)
  else
    match convert_video_to_audio env st base_name with
    | (st1, .error e) => (st1, some e)
    | (st1, .ok audio_path) =>
      match split_audio_if_needed env st1 audio_path with
      | (st2, .error e) => (st2, some e)
      | (st2, .ok split_files) =>
        let tr := transcribeAll env base_name st2 (List.enumFrom 1 split_files)
        let json_files := tr.2
        match readJsons tr.1 json_files with
        | .error e => (tr.1, some e)
        | .ok docs =>
          let combined_written := fsWrite tr.1.jsonFiles (combinedJsonPath base_name) (combine_json_segments docs)
          let st4 : St := { tr.1 with jsonFiles := combined_written }
          match fsRead st4.jsonFiles (combinedJsonPath base_name) with
          | none => (st4, some ("FileNotFoundError: " ++ combinedJsonPath base_name))
          | some combined =>
            let srt_written := fsWrite st4.srtFiles (srtPath base_name) (convert_json_to_srt combined)
            let st5 : St := { st4 with srtFiles := srt_written }
            removeFiles st5 (split_files ++ json_files)

/-- Embedding of the batch loop of `process_video_files` (script.py lines
135-171): items are processed in order; an unhandled exception from one item
aborts the whole loop, carrying the state reached so far. -/
def process_video_files (env : Env) : List String → St → St × Option String
  | [], st => (st, none)
  | v :: rest, st =>
    match processOne env st v with
    | (st1, none) => process_video_files env rest st1
    | (st1, some e) => (st1, some e)

theorem pyFormatInt_nonneg (w : Nat) (n : Int) (h : 0 ≤ n) :
    pyFormatInt w n = pad0 w (natDecimal n.toNat) := by
  rw [pyFormatInt, if_neg (by omega)]

theorem pyFormatInt_ofNat (w : Nat) (n : Nat) : pyFormatInt w (n : Int) = pad0 w (natDecimal n) := by
  simp [pyFormatInt]

/-- General shape of the rendered timestamp for a non-negative input:
four zero-padded decimal fields with truncated milliseconds below 1000,
seconds and minutes below 60, and the hour field unbounded. -/
theorem seconds_to_srt_timestamp_format (q : ℚ) (hq : 0 ≤ q) :
    ∃ H M S MS : Nat,
      seconds_to_srt_timestamp q =
        pad0 2 (natDecimal H) ++ ":" ++ pad0 2 (natDecimal M) ++ ":" ++
          pad0 2 (natDecimal S) ++ "," ++ pad0 3 (natDecimal MS) ∧
      MS < 1000 ∧ S < 60 ∧ M < 60 ∧
      (MS : Int) = ⌊(q - ⌊q⌋) * 1000⌋ ∧
      ((H * 3600 + M * 60 + S : Nat) : Int) = ⌊q⌋ := by
  have hfl : (0 : Int) ≤ ⌊q⌋ := Int.floor_nonneg.mpr hq
  set n : Nat := (⌊q⌋).toNat with hn
  have hnn : (n : Int) = ⌊q⌋ := Int.toNat_of_nonneg hfl
  have hfr0 : (0 : ℚ) ≤ q - ⌊q⌋ := by
    have h := Int.fract_nonneg q
    unfold Int.fract at h
    exact h
  have hfr1 : q - ⌊q⌋ < 1 := by
    have h := Int.fract_lt_one q
    unfold Int.fract at h
    exact h
  have hms0 : (0 : Int) ≤ ⌊(q - ⌊q⌋) * 1000⌋ := Int.floor_nonneg.mpr (by positivity)
  have hms1 : ⌊(q - ⌊q⌋) * 1000⌋ < 1000 := by
    apply Int.floor_lt.mpr
    push_cast
    nlinarith
  set msi : Int := ⌊(q - ⌊q⌋) * 1000⌋ with hmsi
  refine ⟨n / 3600, n % 3600 / 60, n % 3600 % 60, msi.toNat, ?_, by omega, by omega, by omega,
    by omega, by omega⟩
  have e1 : pyInt q = (n : Int) := by simp [pyInt, hq, hnn]
  have e2 : pyInt (pyMod1 q * 1000) = msi := by
    rw [pyMod1, pyInt, if_pos (mul_nonneg hfr0 (by norm_num))]
  have e3 : ((n : Int) / 3600) = ((n / 3600 : Nat) : Int) := by omega
  have e4 : ((n : Int) % 3600) = ((n % 3600 : Nat) : Int) := by omega
  have e5 : (((n % 3600 : Nat) : Int) / 60) = ((n % 3600 / 60 : Nat) : Int) := by omega
  have e6 : (((n % 3600 : Nat) : Int) % 60) = ((n % 3600 % 60 : Nat) : Int) := by omega
  rw [seconds_to_srt_timestamp]
  rw [e2, e1]
  simp only [pyDivmod, e3, e4, e5, e6]
  rw [pyFormatInt_ofNat, pyFormatInt_ofNat, pyFormatInt_ofNat, pyFormatInt_nonneg 3 msi hms0]

/-- Evaluation of the codec at zero. -/
theorem ts_zero : seconds_to_srt_timestamp 0 = "00:00:00,000" := by
  have h0 : ⌊(0 : ℚ)⌋ = 0 := by norm_num
  rw [seconds_to_srt_timestamp, pyMod1, pyInt, pyInt]
  norm_num
  decide

/-- Evaluation of the codec at 59.9996: the 59 whole seconds stay 59 and the
fractional part truncates to 999 milliseconds. -/
theorem ts_599996 : seconds_to_srt_timestamp (599996 / 10000) = "00:00:59,999" := by
  have h1 : ⌊(599996 / 10000 : ℚ)⌋ = 59 := by norm_num [Int.floor_eq_iff]
  have h2 : ⌊((599996 / 10000 : ℚ) - ((59 : Int) : ℚ)) * 1000⌋ = 999 := by
    norm_num [Int.floor_eq_iff]
  rw [seconds_to_srt_timestamp, pyMod1, h1, pyInt, pyInt, if_pos (by norm_num),
    if_pos (by norm_num), h1, h2]
  decide

/-- C8: for every non-negative seconds value the rendered timestamp is
HH:MM:SS,mmm with the hour field zero-padded to at least 2 digits, the
milliseconds field truncated (floor of the fractional part times 1000) and
strictly below 1000, the seconds and minutes fields strictly below 60;
`encode 0` is "00:00:00,000" and `encode 59.9996` renders 59 seconds and
999 milliseconds, not 60 seconds. -/
theorem C8_timestamp_codec :
    (∀ q : ℚ, 0 ≤ q →
      ∃ H M S MS : Nat,
        seconds_to_srt_timestamp q =
          pad0 2 (natDecimal H) ++ ":" ++ pad0 2 (natDecimal M) ++ ":" ++
            pad0 2 (natDecimal S) ++ "," ++ pad0 3 (natDecimal MS) ∧
        MS < 1000 ∧ S < 60 ∧ M < 60 ∧
        (MS : Int) = ⌊(q - ⌊q⌋) * 1000⌋ ∧
        ((H * 3600 + M * 60 + S : Nat) : Int) = ⌊q⌋) ∧
    seconds_to_srt_timestamp 0 = "00:00:00,000" ∧
    seconds_to_srt_timestamp (599996 / 10000) = "00:00:59,999" :=
  ⟨seconds_to_srt_timestamp_format, ts_zero, ts_599996⟩

/-- Witness for C8 at the concrete input 2 seconds. -/
theorem C8_timestamp_codec_witness :
    ∃ H M S MS : Nat,
      seconds_to_srt_timestamp 2 =
        pad0 2 (natDecimal H) ++ ":" ++ pad0 2 (natDecimal M) ++ ":" ++
          pad0 2 (natDecimal S) ++ "," ++ pad0 3 (natDecimal MS) ∧
      MS < 1000 ∧ S < 60 ∧ M < 60 ∧
      (MS : Int) = ⌊((2 : ℚ) - ⌊(2 : ℚ)⌋) * 1000⌋ ∧
      ((H * 3600 + M * 60 + S : Nat) : Int) = ⌊(2 : ℚ)⌋ :=
  C8_timestamp_codec.1 2 (by norm_num)

theorem string_join_cons (s : String) (l : List String) :
    String.join (s :: l) = s ++ String.join l := by
  simp [String.join_eq, String.ext_iff]

theorem join_map_enumFrom_blocks (n : Nat) (l : List TranscriptSegment) :
    String.join ((List.enumFrom n l).map fun p => srtBlock p.1 p.2) = renderSpecFrom n l := by
  induction l generalizing n with
  | nil => rfl
  | cons s rest ih =>
    rw [List.enumFrom, List.map_cons, string_join_cons, renderSpecFrom, ih]

/-- C9: the embedded renderer emits exactly one block per segment in input
order, numbered sequentially from 1 (the claim-side `renderSpec`); an empty
or absent segment list yields the empty document; a segment with missing
start, end and text fields still produces a block, with both timestamps 0
and empty text. -/
theorem C9_render_one_block_per_segment :
    (∀ data : JsonDoc, convert_json_to_srt data = renderSpec (data.segments.getD [])) ∧
    convert_json_to_srt ⟨some []⟩ = "" ∧
    convert_json_to_srt ⟨none⟩ = "" ∧
    convert_json_to_srt ⟨some [⟨none, none, none⟩]⟩ =
      "1\n00:00:00,000 --> 00:00:00,000\n\n" := by
  refine ⟨fun data => join_map_enumFrom_blocks 1 _, rfl, rfl, ?_⟩
  rw [convert_json_to_srt]
  show String.join [srtBlock 1 ⟨none, none, none⟩] = _
  rw [string_join_cons, srtBlock]
  simp only [Option.getD_none, Option.getD_some]
  rw [ts_zero]
  rfl

/-- C10: a transcript document that lacks the segments key entirely is
treated as containing zero segments by both the combine operation (it
contributes nothing, wherever it occurs in the input list) and the subtitle
renderer (which produces the empty document); both complete without any
error outcome. -/
theorem C10_absent_segments_key_is_empty (d : JsonDoc) (docs1 docs2 : List JsonDoc)
    (h : d.segments = none) :
    combine_json_segments (docs1 ++ d :: docs2) = combine_json_segments (docs1 ++ docs2) ∧
    convert_json_to_srt d = "" := by
  constructor
  · simp [combine_json_segments, List.foldl_append, h]
  · rw [convert_json_to_srt, h]
    rfl

/-- Witness for C10 with a one-document prefix and an absent-key document. -/
theorem C10_absent_segments_key_is_empty_witness :
    combine_json_segments ([⟨some [⟨some 1, some 2, some "x"⟩]⟩] ++ ⟨none⟩ :: []) =
      combine_json_segments ([⟨some [⟨some 1, some 2, some "x"⟩]⟩] ++ []) ∧
    convert_json_to_srt ⟨none⟩ = "" :=
  C10_absent_segments_key_is_empty ⟨none⟩ [⟨some [⟨some 1, some 2, some "x"⟩]⟩] [] rfl

/-- C1: evaluation of the embedded combine operation on the claim's own
example.  The script's `combine_json_segments` takes no chunk durations and
concatenates the per-chunk segment lists verbatim, so for chunk durations
300 and 300 and chunk-local segments at 0..5, the second chunk's segment is
NOT shifted to 300..305: the result differs from the transcript the claim
requires.  (spec.md section 9 itself flags this non-offsetting variant as a
defect, so this is recorded as a code bug, not a spec error.) -/
theorem C1_combine_does_not_shift_offsets :
    combine_json_segments
        [⟨some [⟨some 0, some 5, some "a"⟩]⟩, ⟨some [⟨some 0, some 5, some "b"⟩]⟩] =
      ⟨some [⟨some 0, some 5, some "a"⟩, ⟨some 0, some 5, some "b"⟩]⟩ ∧
    combine_json_segments
        [⟨some [⟨some 0, some 5, some "a"⟩]⟩, ⟨some [⟨some 0, some 5, some "b"⟩]⟩] ≠
      ⟨some [⟨some 0, some 5, some "a"⟩, ⟨some 300, some 305, some "b"⟩]⟩ := by
  constructor
  · rfl
  · intro h
    rw [combine_json_segments] at h
    simp only [JsonDoc.mk.injEq, Option.some.injEq] at h
    have h2 := List.head_eq_of_cons_eq (List.tail_eq_of_cons_eq h)
    simp only [TranscriptSegment.mk.injEq, Option.some.injEq] at h2
    have : (0 : ℚ) = 300 := h2.1
    norm_num at this

/-- Any run of the retry loop in which all five attempts raise ends with no
transcript, the five sleeps 60, 120, 180, 240, 300 and five service calls,
regardless of the error messages (rate-limit hints included). -/
theorem transcribe_all_attempts_fail (attempt : Nat → Except String JsonDoc)
    (msgs : Nat → String) (h : ∀ k, attempt k = .error (msgs k)) :
    transcribe_audio_with_groq attempt = ⟨none, [60, 120, 180, 240, 300], 5⟩ := by
  rw [transcribe_audio_with_groq]
  rw [transcribeGo, h 0, transcribeGo, h 1, transcribeGo, h 2, transcribeGo, h 3,
    transcribeGo, h 4, transcribeGo]

/-- C4 counterexample: a persistent rate-limit error whose payload carries
the retry hint "1m30.5s" is not retried indefinitely and no 90-second wait
is derived from the hint; the loop treats it exactly like any other
exception, sleeps 60, 120, 180, 240, 300 seconds and gives up after the
fixed five attempts, so the attempts do count toward the bounded budget. -/
theorem C4_rate_limit_hint_never_parsed :
    transcribe_audio_with_groq
        (fun _ => .error "Rate limit reached. Please try again in 1m30.5s.") =
      ⟨none, [60, 120, 180, 240, 300], 5⟩ := by
  rfl

/-- C4 (amended): every service error, rate-limit or not, is handled by the
single bounded loop: the k-th failure waits 60k seconds, the attempt counts
toward the five-attempt budget, and after five failures the loop stops; no
retry hint is ever parsed and no indefinite retry happens. -/
theorem C4_uniform_bounded_retry (attempt : Nat → Except String JsonDoc)
    (msgs : Nat → String) (h : ∀ k, attempt k = .error (msgs k)) :
    transcribe_audio_with_groq attempt = ⟨none, [60, 120, 180, 240, 300], 5⟩ :=
  transcribe_all_attempts_fail attempt msgs h

/-- Witness for C4 (amended) on a concrete always-failing service. -/
theorem C4_uniform_bounded_retry_witness :
    transcribe_audio_with_groq (fun _ => .error "Please try again in 45.2s") =
      ⟨none, [60, 120, 180, 240, 300], 5⟩ :=
  C4_uniform_bounded_retry (fun _ => .error "Please try again in 45.2s")
    (fun _ => "Please try again in 45.2s") (fun _ => rfl)

/-- An environment whose extraction step fails for the item "a" only. -/
def extractFailEnv : Env :=
  { extract := fun b => if b = "a" then .error "CalledProcessError: ffmpeg" else .ok ()
    oversized := fun _ => false
    splitResult := fun _ => .error "unused"
    attempt := fun _ _ => .ok ⟨some []⟩ }

/-- C2 counterexample: in a batch of two items where the first item's
extraction command fails, the run aborts with that error, the second item is
never processed (its subtitle is never produced and zero transcription calls
happen), contradicting the claim that one item's failure marks only that
item and processing continues. -/
theorem C2_single_failure_aborts_batch :
    (process_video_files extractFailEnv ["a", "b"] ⟨[], [], [], [], 0⟩).2 =
      some "CalledProcessError: ffmpeg" ∧
    srtPath "b" ∉
      (process_video_files extractFailEnv ["a", "b"] ⟨[], [], [], [], 0⟩).1.srtFiles.map Prod.fst ∧
    (process_video_files extractFailEnv ["a", "b"] ⟨[], [], [], [], 0⟩).1.transcribeCalls = 0 := by
  refine ⟨?_, ?_, ?_⟩ <;> decide

/-- C2 (amended): an unhandled error while processing one work item aborts
the whole batch loop at that item: the loop returns that error immediately
and none of the remaining items is processed. -/
theorem C2_error_propagates_out_of_batch (env : Env) (st st' : St) (v : String)
    (rest : List String) (e : String) (h : processOne env st v = (st', some e)) :
    process_video_files env (v :: rest) st = (st', some e) := by
  rw [process_video_files, h]

/-- Witness for C2 (amended) on the concrete failing environment. -/
theorem C2_error_propagates_out_of_batch_witness :
    process_video_files extractFailEnv ["a", "b"] ⟨[], [], [], [], 0⟩ =
      (⟨[], [], [], [], 0⟩, some "CalledProcessError: ffmpeg") :=
  C2_error_propagates_out_of_batch extractFailEnv ⟨[], [], [], [], 0⟩ ⟨[], [], [], [], 0⟩
    "a" ["b"] "CalledProcessError: ffmpeg" (by decide)

/-- An environment in which extraction succeeds, nothing is split and every
transcription attempt raises `msg`. -/
def allFailEnv (msg : String) : Env :=
  { extract := fun _ => .ok ()
    oversized := fun _ => false
    splitResult := fun _ => .error "unused"
    attempt := fun _ _ => .error msg }

/-- C3 counterexample: when every one of the five attempts fails, the
transcribe operation itself surfaces no error at all — it returns normally
with no transcript written (its outcome type has no failure case because the
loop catches every exception).  The containing work item does fail, but only
later, when the combine step cannot open the never-written chunk transcript:
the error surfaced is a file-not-found error from the combine stage, not a
fatal error from the transcribe operation as the claim states. -/
theorem C3_exhausted_retries_return_silently :
    transcribe_audio_with_groq (fun _ => .error "APIConnectionError") =
      ⟨none, [60, 120, 180, 240, 300], 5⟩ ∧
    (processOne (allFailEnv "APIConnectionError") ⟨[], [], [], [], 0⟩ "vid").2 =
      some "FileNotFoundError: json/vid-split001.json" := by
  constructor
  · rfl
  · decide

/-- C3 (amended): if every transcription attempt for an unsplit item fails,
`transcribe_audio_with_groq` returns without error after five calls and
writes nothing; the work item then fails when the combine step opens the
missing per-chunk transcript, so no subtitle is produced for the item (no
gapped subtitle, but the fatal error originates in the combine step). -/
theorem C3_failed_transcription_fails_item_at_combine
    (env : Env) (st : St) (base msg : String)
    (hsrt : srtPath base ∉ st.srtFiles.map Prod.fst)
    (hex : env.extract base = .ok ())
    (hov : env.oversized (audioPath base) = false)
    (hat : ∀ k, env.attempt (audioPath base) k = .error msg)
    (hjs : fsRead st.jsonFiles (chunkJsonPath base 1) = none) :
    ∃ st' : St,
      processOne env st base = (st', some ("FileNotFoundError: " ++ chunkJsonPath base 1)) ∧
      st'.srtFiles = st.srtFiles ∧
      st'.removedLog = st.removedLog ∧
      st'.transcribeCalls = st.transcribeCalls + 5 := by
  rw [processOne, if_neg hsrt]
  simp only [convert_video_to_audio, hex]
  simp only [split_audio_if_needed, hov, Bool.false_eq_true, if_false]
  simp only [List.enumFrom]
  simp only [transcribeAll, transcribe_all_attempts_fail (env.attempt (audioPath base))
    (fun _ => msg) hat]
  simp only [readJsons, hjs]
  exact ⟨_, rfl, by simp, by simp, by simp⟩

/-- Witness for C3 (amended) on the concrete all-failing environment. -/
theorem C3_failed_transcription_fails_item_at_combine_witness :
    ∃ st' : St,
      processOne (allFailEnv "APIError") ⟨[], [], [], [], 0⟩ "vid" =
        (st', some ("FileNotFoundError: " ++ chunkJsonPath "vid" 1)) ∧
      st'.srtFiles = [] ∧
      st'.removedLog = [] ∧
      st'.transcribeCalls = 0 + 5 :=
  C3_failed_transcription_fails_item_at_combine (allFailEnv "APIError") ⟨[], [], [], [], 0⟩
    "vid" "APIError" (by simp) rfl rfl (fun _ => rfl) rfl

theorem fsErase_of_not_mem {α : Type} (l : List (String × α)) (p : String)
    (h : p ∉ l.map Prod.fst) : fsErase l p = l := by
  induction l with
  | nil => rfl
  | cons q rest ih =>
    simp only [List.map_cons, List.mem_cons] at h
    push_neg at h
    rw [fsErase, if_neg (by exact fun hc => h.1 hc.symm), ih h.2]

theorem fsErase_append {α : Type} (l1 l2 : List (String × α)) (p : String) :
    fsErase (l1 ++ l2) p = fsErase l1 p ++ fsErase l2 p := by
  induction l1 with
  | nil => rfl
  | cons q rest ih =>
    by_cases hq : q.1 = p
    · simp only [List.cons_append, fsErase, if_pos hq, List.append_eq, ih]
    · simp only [List.cons_append, fsErase, if_neg hq, List.append_eq, ih, List.cons_append]

theorem fsRead_append_of_not_mem {α : Type} (l1 l2 : List (String × α)) (p : String)
    (h : p ∉ l1.map Prod.fst) : fsRead (l1 ++ l2) p = fsRead l2 p := by
  induction l1 with
  | nil => rfl
  | cons q rest ih =>
    simp only [List.map_cons, List.mem_cons] at h
    push_neg at h
    rw [List.cons_append, fsRead, if_neg (by exact fun hc => h.1 hc.symm), ih h.2]

theorem listRemove_of_not_mem (l : List String) (p : String) (h : p ∉ l) :
    listRemove l p = l := by
  induction l with
  | nil => rfl
  | cons a as ih =>
    simp only [List.mem_cons] at h
    push_neg at h
    rw [listRemove, if_neg (by exact fun hc => h.1 hc.symm), ih h.2]

theorem listRemove_append (l1 l2 : List String) (p : String) :
    listRemove (l1 ++ l2) p = listRemove l1 p ++ listRemove l2 p := by
  induction l1 with
  | nil => rfl
  | cons a as ih =>
    by_cases ha : a = p
    · simp only [List.cons_append, listRemove, if_pos ha, List.append_eq, ih]
    · simp only [List.cons_append, listRemove, if_neg ha, List.append_eq, ih, List.cons_append]

theorem chunkJsonPath_ne_combined (base : String) :
    chunkJsonPath base 1 ≠ combinedJsonPath base := by
  intro h
  have hl := congrArg String.length h
  rw [chunkJsonPath, combinedJsonPath] at hl
  rw [show pad0 3 (natDecimal 1) = "001" from rfl] at hl
  simp only [String.length_append] at hl
  rw [show String.length "json/" = 5 from rfl, show String.length "-split" = 6 from rfl,
    show String.length "001" = 3 from rfl, show String.length ".json" = 5 from rfl] at hl
  omega

theorem removeFiles_cons_audio (st : St) (p : String) (rest : List String)
    (h : p ∈ st.audioFiles) :
    removeFiles st (p :: rest) =
      removeFiles { st with audioFiles := listRemove st.audioFiles p,
                            removedLog := st.removedLog ++ [p] } rest := by
  rw [removeFiles, if_pos h]

theorem removeFiles_cons_json (st : St) (p : String) (rest : List String)
    (h1 : p ∉ st.audioFiles) (h2 : p ∈ st.jsonFiles.map Prod.fst) :
    removeFiles st (p :: rest) =
      removeFiles { st with jsonFiles := fsErase st.jsonFiles p,
                            removedLog := st.removedLog ++ [p] } rest := by
  rw [removeFiles, if_neg h1, if_pos h2]

/-- An environment in which extraction succeeds, the audio is small enough
not to be split, and the first transcription attempt returns `doc`. -/
def oneChunkOkEnv (doc : JsonDoc) : Env :=
  { extract := fun _ => .ok ()
    oversized := fun _ => false
    splitResult := fun _ => .error "unused"
    attempt := fun _ _ => .ok doc }

/-- An environment in which extraction succeeds, the audio is oversized and
splits into two chunks for the item "a", and every transcription attempt
returns `doc`. -/
def splitOkEnv (doc : JsonDoc) : Env :=
  { extract := fun _ => .ok ()
    oversized := fun _ => true
    splitResult := fun _ => .ok [segmentFilePath "a" 0, segmentFilePath "a" 1]
    attempt := fun _ _ => .ok doc }

/-- C5 counterexample: after a fully successful run of one item, the
combined transcript file is still present (only `split_files + json_files`
are deleted, and the combined JSON is in neither list), and in the split
case the originally extracted audio file also remains; the final subtitle
file is therefore not the only remaining artifact. -/
theorem C5_success_leaves_artifacts :
    (processOne (oneChunkOkEnv ⟨some []⟩) ⟨[], [], [], [], 0⟩ "a").2 = none ∧
    combinedJsonPath "a" ∈
      (processOne (oneChunkOkEnv ⟨some []⟩) ⟨[], [], [], [], 0⟩ "a").1.jsonFiles.map Prod.fst ∧
    (processOne (splitOkEnv ⟨some []⟩) ⟨[], [], [], [], 0⟩ "a").2 = none ∧
    audioPath "a" ∈ (processOne (splitOkEnv ⟨some []⟩) ⟨[], [], [], [], 0⟩ "a").1.audioFiles := by
  refine ⟨?_, ?_, ?_, ?_⟩ <;> decide

/-- C5 (amended): on success the script deletes exactly the files listed in
`split_files + json_files`.  For an unsplit item this is the extracted audio
and the per-chunk transcript; the combined transcript file is written and
never deleted, so it remains beside the final subtitle (and for a split item
the extracted audio remains too, as the counterexample shows concretely).
On failure nothing is deleted: an item whose extraction fails leaves the
state untouched. -/
theorem C5_cleanup_scope :
    (∀ (env : Env) (st : St) (base : String) (doc : JsonDoc),
      srtPath base ∉ st.srtFiles.map Prod.fst →
      env.extract base = .ok () →
      env.oversized (audioPath base) = false →
      env.attempt (audioPath base) 0 = .ok doc →
      audioPath base ∉ st.audioFiles →
      chunkJsonPath base 1 ∉ st.jsonFiles.map Prod.fst →
      combinedJsonPath base ∉ st.jsonFiles.map Prod.fst →
      chunkJsonPath base 1 ∉ st.audioFiles →
      processOne env st base =
        ({ st with
            jsonFiles := st.jsonFiles ++ [(combinedJsonPath base, combine_json_segments [doc])],
            srtFiles := st.srtFiles ++
              [(srtPath base, convert_json_to_srt (combine_json_segments [doc]))],
            removedLog := st.removedLog ++ [audioPath base, chunkJsonPath base 1],
            transcribeCalls := st.transcribeCalls + 1 }, none)) ∧
    (∀ (env : Env) (st : St) (base e : String),
      srtPath base ∉ st.srtFiles.map Prod.fst →
      env.extract base = .error e →
      processOne env st base = (st, some e)) := by
  constructor
  · intro env st base doc hsrt hex hov hat0 hau hcj hcb hax
    have hrun : transcribe_audio_with_groq (env.attempt (audioPath base)) = ⟨some doc, [], 1⟩ := by
      rw [transcribe_audio_with_groq, transcribeGo, hat0]
    have hne : chunkJsonPath base 1 ≠ combinedJsonPath base := chunkJsonPath_ne_combined base
    have hW1 : fsWrite st.jsonFiles (chunkJsonPath base 1) doc =
        st.jsonFiles ++ [(chunkJsonPath base 1, doc)] := by
      rw [show fsWrite st.jsonFiles (chunkJsonPath base 1) doc =
        fsErase st.jsonFiles (chunkJsonPath base 1) ++ [(chunkJsonPath base 1, doc)] from rfl,
        fsErase_of_not_mem _ _ hcj]
    have hR1 : fsRead (st.jsonFiles ++ [(chunkJsonPath base 1, doc)]) (chunkJsonPath base 1) =
        some doc := by
      rw [fsRead_append_of_not_mem _ _ _ hcj, fsRead, if_pos rfl]
    have hW2 : fsWrite (st.jsonFiles ++ [(chunkJsonPath base 1, doc)]) (combinedJsonPath base)
        (combine_json_segments [doc]) =
        (st.jsonFiles ++ [(chunkJsonPath base 1, doc)]) ++
          [(combinedJsonPath base, combine_json_segments [doc])] := by
      rw [show fsWrite (st.jsonFiles ++ [(chunkJsonPath base 1, doc)]) (combinedJsonPath base)
          (combine_json_segments [doc]) =
        fsErase (st.jsonFiles ++ [(chunkJsonPath base 1, doc)]) (combinedJsonPath base) ++
          [(combinedJsonPath base, combine_json_segments [doc])] from rfl]
      rw [fsErase_append, fsErase_of_not_mem _ _ hcb]
      rw [show fsErase [(chunkJsonPath base 1, doc)] (combinedJsonPath base) =
          [(chunkJsonPath base 1, doc)] from by rw [fsErase, if_neg hne]; rfl]
    have hcb2 : combinedJsonPath base ∉
        (st.jsonFiles ++ [(chunkJsonPath base 1, doc)]).map Prod.fst := by
      simp only [List.map_append, List.mem_append, List.map_cons, List.map_nil,
        List.mem_cons, List.not_mem_nil, or_false]
      rintro (h | h)
      · exact hcb h
      · exact hne h.symm
    have hR2 : fsRead ((st.jsonFiles ++ [(chunkJsonPath base 1, doc)]) ++
        [(combinedJsonPath base, combine_json_segments [doc])]) (combinedJsonPath base) =
        some (combine_json_segments [doc]) := by
      rw [fsRead_append_of_not_mem _ _ _ hcb2, fsRead, if_pos rfl]
    have hW3 : fsWrite st.srtFiles (srtPath base)
        (convert_json_to_srt (combine_json_segments [doc])) =
        st.srtFiles ++ [(srtPath base, convert_json_to_srt (combine_json_segments [doc]))] := by
      rw [show fsWrite st.srtFiles (srtPath base)
          (convert_json_to_srt (combine_json_segments [doc])) =
        fsErase st.srtFiles (srtPath base) ++
          [(srtPath base, convert_json_to_srt (combine_json_segments [doc]))] from rfl,
        fsErase_of_not_mem _ _ hsrt]
    rw [processOne, if_neg hsrt]
    simp only [convert_video_to_audio, hex]
    rw [if_neg hau]
    simp only [split_audio_if_needed, hov, Bool.false_eq_true, if_false]
    simp only [List.enumFrom]
    simp only [transcribeAll, hrun, hW1]
    simp only [readJsons, hR1]
    simp only [hW2, hR2, hW3]
    have hLR : listRemove (st.audioFiles ++ [audioPath base]) (audioPath base) = st.audioFiles := by
      rw [listRemove_append, listRemove_of_not_mem _ _ hau, listRemove, if_pos rfl, listRemove,
        List.append_nil]
    have hE : fsErase (st.jsonFiles ++ [(chunkJsonPath base 1, doc),
        (combinedJsonPath base, combine_json_segments [doc])]) (chunkJsonPath base 1) =
        st.jsonFiles ++ [(combinedJsonPath base, combine_json_segments [doc])] := by
      rw [fsErase_append, fsErase_of_not_mem _ _ hcj]
      rw [fsErase, if_pos rfl, fsErase, if_neg (fun hc => hne hc.symm), fsErase]
    rw [show ([audioPath base] ++ [chunkJsonPath base 1]) = [audioPath base, chunkJsonPath base 1]
      from rfl]
    rw [removeFiles_cons_audio _ _ _ (by simp)]
    rw [removeFiles_cons_json _ _ _ (by simp only [hLR]; exact hax) (by simp)]
    rw [removeFiles]
    simp only [hLR, hE, List.append_assoc, List.singleton_append, List.cons_append,
      List.nil_append]
  · intro env st base e hsrt hexe
    rw [processOne, if_neg hsrt]
    simp only [convert_video_to_audio, hexe]

/-- Witness for C5 (amended), both parts, on concrete environments. -/
theorem C5_cleanup_scope_witness :
    processOne (oneChunkOkEnv ⟨some []⟩) ⟨[], [], [], [], 0⟩ "a" =
      (⟨[], [(combinedJsonPath "a", combine_json_segments [⟨some []⟩])],
        [(srtPath "a", convert_json_to_srt (combine_json_segments [⟨some []⟩]))],
        [audioPath "a", chunkJsonPath "a" 1], 0 + 1⟩, none) ∧
    processOne extractFailEnv ⟨[], [], [], [], 0⟩ "a" =
      (⟨[], [], [], [], 0⟩, some "CalledProcessError: ffmpeg") :=
  ⟨C5_cleanup_scope.1 (oneChunkOkEnv ⟨some []⟩) ⟨[], [], [], [], 0⟩ "a" ⟨some []⟩
      (by simp) rfl rfl rfl (by simp) (by simp) (by simp) (by simp),
    C5_cleanup_scope.2 extractFailEnv ⟨[], [], [], [], 0⟩ "a" "CalledProcessError: ffmpeg"
      (by simp) rfl⟩

theorem convert_video_to_audio_srtFiles (env : Env) (st : St) (b : String) :
    ((convert_video_to_audio env st b).1).srtFiles = st.srtFiles := by
  cases h : env.extract b <;> simp [convert_video_to_audio, h]

theorem split_audio_if_needed_srtFiles (env : Env) (st : St) (p : String) :
    ((split_audio_if_needed env st p).1).srtFiles = st.srtFiles := by
  rw [split_audio_if_needed]
  by_cases hov : env.oversized p
  · rw [if_pos hov]
    cases h : env.splitResult p <;> simp
  · rw [if_neg hov]

theorem transcribeAll_srtFiles (env : Env) (b : String) (L : List (Nat × String)) :
    ∀ st : St, ((transcribeAll env b st L).1).srtFiles = st.srtFiles := by
  induction L with
  | nil => intro st; rfl
  | cons p rest ih =>
    intro st
    obtain ⟨idx, chunk⟩ := p
    rw [transcribeAll]
    exact ih _

theorem removeFiles_srtFiles (ps : List String) : ∀ st : St,
    (((removeFiles st ps).1).srtFiles = st.srtFiles) := by
  induction ps with
  | nil => intro st; rfl
  | cons p rest ih =>
    intro st
    rw [removeFiles]
    by_cases h1 : p ∈ st.audioFiles
    · rw [if_pos h1]; exact ih _
    · rw [if_neg h1]
      by_cases h2 : p ∈ st.jsonFiles.map Prod.fst
      · rw [if_pos h2]; exact ih _
      · rw [if_neg h2]

theorem fsWrite_map_fst_self {α : Type} (l : List (String × α)) (q : String) (v : α) :
    q ∈ (fsWrite l q v).map Prod.fst := by
  simp [fsWrite]

theorem fsErase_map_fst_mem {α : Type} (l : List (String × α)) (p q : String)
    (hne : p ≠ q) (h : p ∈ l.map Prod.fst) : p ∈ (fsErase l q).map Prod.fst := by
  induction l with
  | nil => exact absurd h (by simp)
  | cons a rest ih =>
    rw [List.map_cons, List.mem_cons] at h
    rw [fsErase]
    by_cases ha : a.1 = q
    · rw [if_pos ha]
      rcases h with h1 | h1
      · exact absurd (h1.trans ha) hne
      · exact ih h1
    · rw [if_neg ha, List.map_cons, List.mem_cons]
      rcases h with h1 | h1
      · exact Or.inl h1
      · exact Or.inr (ih h1)

theorem fsWrite_map_fst_mem {α : Type} (l : List (String × α)) (p q : String) (v : α)
    (h : p ∈ l.map Prod.fst) : p ∈ (fsWrite l q v).map Prod.fst := by
  by_cases hpq : p = q
  · subst hpq; exact fsWrite_map_fst_self l p v
  · rw [fsWrite, List.map_append, List.mem_append]
    exact Or.inl (fsErase_map_fst_mem l p q hpq h)

theorem processOne_cases (env : Env) (st : St) (v : String) :
    (srtPath v ∈ st.srtFiles.map Prod.fst ∧ processOne env st v = (st, none)) ∨
    ((processOne env st v).2 ≠ none ∧ ((processOne env st v).1).srtFiles = st.srtFiles) ∨
    (∃ (st5 : St) (L : List String), processOne env st v = removeFiles st5 L ∧
      srtPath v ∈ st5.srtFiles.map Prod.fst ∧
      ∀ p ∈ st.srtFiles.map Prod.fst, p ∈ st5.srtFiles.map Prod.fst) := by
  by_cases hs : srtPath v ∈ st.srtFiles.map Prod.fst
  · left
    exact ⟨hs, by rw [processOne, if_pos hs]⟩
  · rw [processOne, if_neg hs]
    split
    next st1 e heq =>
      right; left
      have h1 : st1.srtFiles = st.srtFiles := by
        have := congrArg (fun p => (p.1).srtFiles) heq
        simpa [convert_video_to_audio_srtFiles] using this.symm
      exact ⟨by simp, h1⟩
    next st1 ap heq =>
      have h1 : st1.srtFiles = st.srtFiles := by
        have := congrArg (fun p => (p.1).srtFiles) heq
        simpa [convert_video_to_audio_srtFiles] using this.symm
      split
      next st2 e heq2 =>
        right; left
        have h2 : st2.srtFiles = st.srtFiles := by
          have := congrArg (fun p => (p.1).srtFiles) heq2
          simpa [split_audio_if_needed_srtFiles, h1] using this.symm
        exact ⟨by simp, h2⟩
      next st2 split_files heq2 =>
        have h2 : st2.srtFiles = st.srtFiles := by
          have := congrArg (fun p => (p.1).srtFiles) heq2
          simpa [split_audio_if_needed_srtFiles, h1] using this.symm
        have h3 : ((transcribeAll env v st2 (List.enumFrom 1 split_files)).1).srtFiles =
            st.srtFiles := by
          rw [transcribeAll_srtFiles, h2]
        dsimp only
        split
        next e heq3 =>
          right; left
          exact ⟨by simp, h3⟩
        next docs heq3 =>
          split
          next heq4 =>
            right; left
            exact ⟨by simp, h3⟩
          next combined heq4 =>
            right; right
            refine ⟨_, _, rfl, ?_, ?_⟩
            · exact fsWrite_map_fst_self _ _ _
            · intro p hp
              exact fsWrite_map_fst_mem _ _ _ _ (h3 ▸ hp)

theorem processOne_ok_srt_mem (env : Env) (st : St) (v : String)
    (h : (processOne env st v).2 = none) :
    srtPath v ∈ ((processOne env st v).1).srtFiles.map Prod.fst := by
  rcases processOne_cases env st v with ⟨hs, heq⟩ | ⟨hne2, _⟩ | ⟨st5, L, heq, hmem, _⟩
  · rw [heq]; exact hs
  · exact absurd h hne2
  · rw [heq, removeFiles_srtFiles]
    exact hmem

theorem processOne_srt_mono (env : Env) (st : St) (v : String) (p : String)
    (hp : p ∈ st.srtFiles.map Prod.fst) :
    p ∈ ((processOne env st v).1).srtFiles.map Prod.fst := by
  rcases processOne_cases env st v with ⟨_, heq⟩ | ⟨_, hpre⟩ | ⟨st5, L, heq, _, hsub⟩
  · rw [heq]; exact hp
  · rw [hpre]; exact hp
  · rw [heq, removeFiles_srtFiles]
    exact hsub p hp

theorem process_video_files_srt_mono (env : Env) (videos : List String) :
    ∀ (st : St) (p : String), p ∈ st.srtFiles.map Prod.fst →
    p ∈ ((process_video_files env videos st).1).srtFiles.map Prod.fst := by
  induction videos with
  | nil => intro st p hp; exact hp
  | cons v rest ih =>
    intro st p hp
    rw [process_video_files]
    have hmono := processOne_srt_mono env st v p hp
    rcases hpo : processOne env st v with ⟨st1, o⟩
    rw [hpo] at hmono
    cases o with
    | none => exact ih st1 p hmono
    | some e => exact hmono

theorem process_video_files_idem (env : Env) (videos : List String) :
    ∀ (st st' : St), process_video_files env videos st = (st', none) →
    process_video_files env videos st' = (st', none) := by
  induction videos with
  | nil =>
    intro st st' h
    injection h with h1 h2
    subst h1
    rfl
  | cons v rest ih =>
    intro st st' h
    rw [process_video_files] at h
    have hok := processOne_ok_srt_mem env st v
    rcases hpo : processOne env st v with ⟨st1, o⟩
    rw [hpo] at h hok
    cases o with
    | some e => simp at h
    | none =>
      dsimp only at h
      have hmem : srtPath v ∈ st1.srtFiles.map Prod.fst := hok rfl
      have hmem2 : srtPath v ∈ st'.srtFiles.map Prod.fst := by
        have := process_video_files_srt_mono env rest st1 (srtPath v) hmem
        rw [h] at this
        exact this
      rw [process_video_files]
      rw [show processOne env st' v = (st', none) from by rw [processOne, if_pos hmem2]]
      exact ih st1 st' h

/-- C7: a work item whose subtitle file already exists is skipped without
invoking any downstream component (the state, including the transcription
call counter, is returned unchanged), and consequently a second run of the
batch loop over the final state of a successful run returns that state
unchanged with zero additional transcription calls and identical subtitle
output. -/
theorem C7_skip_and_idempotence :
    (∀ (env : Env) (st : St) (v : String), srtPath v ∈ st.srtFiles.map Prod.fst →
      processOne env st v = (st, none)) ∧
    (∀ (env : Env) (videos : List String) (st st' : St),
      process_video_files env videos st = (st', none) →
      process_video_files env videos st' = (st', none)) :=
  ⟨fun _ _ _ h => by rw [processOne, if_pos h],
    fun env videos st st' h => process_video_files_idem env videos st st' h⟩

/-- Witness for C7: the skip branch on a state already holding the subtitle,
and a concrete successful one-item run rerun on its own final state. -/
theorem C7_skip_and_idempotence_witness :
    processOne (oneChunkOkEnv ⟨some []⟩) ⟨[], [], [("srt/a.srt", "x")], [], 0⟩ "a" =
      (⟨[], [], [("srt/a.srt", "x")], [], 0⟩, none) ∧
    process_video_files (oneChunkOkEnv ⟨some []⟩) ["a"]
        ((process_video_files (oneChunkOkEnv ⟨some []⟩) ["a"] ⟨[], [], [], [], 0⟩).1) =
      ((process_video_files (oneChunkOkEnv ⟨some []⟩) ["a"] ⟨[], [], [], [], 0⟩).1, none) := by
  constructor
  · exact C7_skip_and_idempotence.1 _ _ _ (by decide)
  · have h2 : (process_video_files (oneChunkOkEnv ⟨some []⟩) ["a"] ⟨[], [], [], [], 0⟩).2 =
        none := by decide
    have h3 : process_video_files (oneChunkOkEnv ⟨some []⟩) ["a"] ⟨[], [], [], [], 0⟩ =
        ((process_video_files (oneChunkOkEnv ⟨some []⟩) ["a"] ⟨[], [], [], [], 0⟩).1,
          (process_video_files (oneChunkOkEnv ⟨some []⟩) ["a"] ⟨[], [], [], [], 0⟩).2) := rfl
    rw [h2] at h3
    exact C7_skip_and_idempotence.2 _ ["a"] _ _ h3


theorem charListLt_cons_same (c : Char) (cs cs' : List Char) :
    charListLt (c :: cs) (c :: cs') = charListLt cs cs' := by
  rw [charListLt, if_neg (lt_irrefl c), if_neg (lt_irrefl c)]

theorem charListLt_append_same (k a b : List Char) :
    charListLt (k ++ a) (k ++ b) = charListLt a b := by
  induction k with
  | nil => rfl
  | cons c cs ih => rw [List.cons_append, List.cons_append, charListLt_cons_same, ih]

theorem digitChar_toLower (d : Nat) (hd : d < 10) :
    Char.toLower (digitChar d) = digitChar d := by
  interval_cases d <;> decide

theorem digitChar_lt_iff (d e : Nat) (hd : d < 10) (he : e < 10) :
    digitChar d < digitChar e ↔ d < e := by
  interval_cases d <;> interval_cases e <;> decide

theorem natDecimalAux_one (f m : Nat) (hf : m < f) (h : m < 10) :
    natDecimalAux f m = [digitChar m] := by
  cases f with
  | zero => omega
  | succ g => rw [natDecimalAux, if_pos h]

theorem natDecimalAux_two (f m : Nat) (hf : m < f) (h1 : 10 ≤ m) (h2 : m < 100) :
    natDecimalAux f m = [digitChar (m / 10), digitChar (m % 10)] := by
  cases f with
  | zero => omega
  | succ g =>
    rw [natDecimalAux, if_neg (by omega)]
    rw [natDecimalAux_one g (m / 10) (by omega) (by omega)]
    rfl

theorem natDecimalAux_three (f m : Nat) (hf : m < f) (h1 : 100 ≤ m) (h2 : m < 1000) :
    natDecimalAux f m =
      [digitChar (m / 100), digitChar (m / 10 % 10), digitChar (m % 10)] := by
  cases f with
  | zero => omega
  | succ g =>
    rw [natDecimalAux, if_neg (by omega)]
    rw [natDecimalAux_two g (m / 10) (by omega) (by omega) (by omega)]
    rw [show m / 10 / 10 = m / 100 from by omega, show m / 10 % 10 = m / 10 % 10 from rfl]
    rfl

theorem pad3_digits (i : Nat) (h : i < 1000) :
    (pad0 3 (natDecimal i)).data =
      [digitChar (i / 100), digitChar (i / 10 % 10), digitChar (i % 10)] := by
  by_cases h1 : i < 10
  · rw [natDecimal, natDecimalAux_one (i + 1) i (by omega) h1]
    rw [show i / 100 = 0 from by omega, show i / 10 % 10 = 0 from by omega,
      show i % 10 = i from by omega]
    rfl
  · by_cases h2 : i < 100
    · rw [natDecimal, natDecimalAux_two (i + 1) i (by omega) (by omega) h2]
      rw [show i / 100 = 0 from by omega, show i / 10 % 10 = i / 10 from by omega]
      rfl
    · rw [natDecimal, natDecimalAux_three (i + 1) i (by omega) (by omega) h]
      rfl

theorem lowerKey_segment (base : String) (i : Nat) (h : i < 1000) :
    pyLowerKey (segmentFilePath base i) =
      (("audio/split/".data ++ base.data ++ "-split".data).map Char.toLower) ++
        ([digitChar (i / 100), digitChar (i / 10 % 10), digitChar (i % 10)] ++
          (".webm".data.map Char.toLower)) := by
  rw [pyLowerKey, segmentFilePath]
  rw [String.data_append, String.data_append, String.data_append, String.data_append]
  rw [List.map_append, List.map_append, List.map_append, List.map_append]
  rw [pad3_digits i h]
  rw [show [digitChar (i / 100), digitChar (i / 10 % 10), digitChar (i % 10)].map Char.toLower =
      [digitChar (i / 100), digitChar (i / 10 % 10), digitChar (i % 10)] from by
    simp only [List.map_cons, List.map_nil]
    rw [digitChar_toLower _ (by omega), digitChar_toLower _ (by omega),
      digitChar_toLower _ (by omega)]]
  simp only [List.map_append, List.append_assoc]

theorem charListLt_cons_false (c d : Char) (cs cs' : List Char) (h : d < c) :
    charListLt (c :: cs) (d :: cs') = false := by
  show (if c < d then true else if d < c then false else charListLt cs cs') = false
  rw [if_neg (lt_asymm h), if_pos h]

theorem charListLt_digits_false (i j : Nat) (hij : i < j) (hj : j < 1000) (s : List Char) :
    charListLt
      (digitChar (j / 100) :: digitChar (j / 10 % 10) :: digitChar (j % 10) :: s)
      (digitChar (i / 100) :: digitChar (i / 10 % 10) :: digitChar (i % 10) :: s) = false := by
  have hi : i < 1000 := by omega
  by_cases e1 : i / 100 = j / 100
  · rw [e1, charListLt_cons_same]
    by_cases e2 : i / 10 % 10 = j / 10 % 10
    · rw [e2, charListLt_cons_same]
      exact charListLt_cons_false _ _ _ _
        (by rw [digitChar_lt_iff _ _ (by omega) (by omega)]; omega)
    · exact charListLt_cons_false _ _ _ _
        (by rw [digitChar_lt_iff _ _ (by omega) (by omega)]; omega)
  · exact charListLt_cons_false _ _ _ _
      (by rw [digitChar_lt_iff _ _ (by omega) (by omega)]; omega)

theorem lowerLt_segment_false (base : String) (i j : Nat) (hij : i < j) (hj : j < 1000) :
    lowerLt (segmentFilePath base j) (segmentFilePath base i) = false := by
  rw [lowerLt, lowerKey_segment base j (by omega), lowerKey_segment base i (by omega)]
  rw [charListLt_append_same]
  exact charListLt_digits_false i j hij hj _

theorem pySorted_of_sorted {α : Type} (lt : α → α → Bool) (l : List α)
    (h : l.Pairwise (fun a b => lt b a = false)) : pySorted lt l = l := by
  induction l with
  | nil => rfl
  | cons x xs ih =>
    rw [pySorted, ih (List.Pairwise.sublist (List.sublist_cons_self x xs) h)]
    cases xs with
    | nil => rfl
    | cons b bs =>
      have hb : lt b x = false := (List.pairwise_cons.mp h).1 b (by simp)
      rw [pyInsert, hb]
      rfl

theorem chunkNames_pairwise (base : String) (n : Nat) (hn : n ≤ 1000) :
    (chunkNames base n).Pairwise (fun a b => lowerLt b a = false) := by
  rw [chunkNames, List.pairwise_map]
  have hr : (List.range n).Pairwise (· < ·) := List.pairwise_lt_range n
  refine hr.imp_of_mem ?_
  intro i j hi hj hij
  exact lowerLt_segment_false base i j hij (by
    have := List.mem_range.mp hj
    omega)

theorem sorted_by_lower_chunkNames (base : String) (n : Nat) (hn : n ≤ 1000) :
    sorted_by_lower (chunkNames base n) = chunkNames base n :=
  pySorted_of_sorted lowerLt _ (chunkNames_pairwise base n hn)

/-- An environment whose split produces chunks indexed 999 and 1000 (a
1001-chunk run, trimmed to the two offending names). -/
def bigSplitEnv : Env :=
  { extract := fun _ => .ok ()
    oversized := fun _ => true
    splitResult := fun _ => .ok [segmentFilePath "a" 999, segmentFilePath "a" 1000]
    attempt := fun _ _ => .ok ⟨some []⟩ }

/-- An environment whose split produces three chronologically listed chunks. -/
def threeChunkEnv : Env :=
  { extract := fun _ => .ok ()
    oversized := fun _ => true
    splitResult := fun _ => .ok (chunkNames "a" 3)
    attempt := fun _ _ => .ok ⟨some []⟩ }

/-- C6 counterexample: the segment operation orders chunks by a
case-insensitive name sort, not by chunk index.  With 1001 chunks the ffmpeg
segment pattern widens to four digits and the name of chunk 1000 sorts
before the name of chunk 999, so the returned sequence is not in
chronological order. -/
theorem C6_name_sort_misorders_chunk_1000 :
    (split_audio_if_needed bigSplitEnv ⟨[], [], [], [], 0⟩ "p").2 =
      .ok [segmentFilePath "a" 1000, segmentFilePath "a" 999] ∧
    [segmentFilePath "a" 1000, segmentFilePath "a" 999] ≠
      [segmentFilePath "a" 999, segmentFilePath "a" 1000] := by
  constructor
  · rfl
  · decide

/-- C6 (amended): the ordering is established by the lowercased-name sort of
the split directory listing; because the naming scheme zero-pads the chunk
index to 3 digits, the sort coincides with chronological chunk-index order
for up to 1000 chunks (indices 0..999), and only misorders beyond that. -/
theorem C6_chronological_up_to_1000 (env : Env) (st : St) (audio_path base : String)
    (n : Nat) (hn : n ≤ 1000)
    (hov : env.oversized audio_path = true)
    (hsp : env.splitResult audio_path = .ok (chunkNames base n)) :
    (split_audio_if_needed env st audio_path).2 = .ok (chunkNames base n) := by
  simp only [split_audio_if_needed, hov, if_true, hsp]
  rw [sorted_by_lower_chunkNames base n hn]

theorem C6_chronological_up_to_1000_witness :
    (split_audio_if_needed threeChunkEnv ⟨[], [], [], [], 0⟩ "p").2 =
      .ok (chunkNames "a" 3) :=
  C6_chronological_up_to_1000 threeChunkEnv ⟨[], [], [], [], 0⟩ "p" "a" 3 (by omega) rfl rfl
